import Mathlib

/-!
Verification development for the Retrieval Context Engine of the
smart_document_search repository.

The Python source is shallowly embedded:
* pure string manipulation is translated to functions on `List Char` with
  explicit Python slice and strip semantics;
* external collaborators (the tokenizer, the summarization model, the
  embedding service, the search index) are parameters of the embedded
  functions, and a call that raises is modelled by the collaborator
  returning `none`;
* a Python function that can raise is modelled with `Except`, the error
  value carrying the exception message.
Machine floats appear in the source only as scores and weights that are
copied around and compared, never rounded; they are modelled by `ℚ`.
-/

deriving instance DecidableEq for Except

namespace SmartDocSearch

set_option maxRecDepth 10000

/-! ### Python string semantics helpers -/

/-- Characters stripped by Python `str.strip()` (the ASCII whitespace set;
the inputs in this development are ASCII). -/
def pyIsSpace (c : Char) : Bool :=
  c = ' ' || c = '\t' || c = '\n' || c = '\x0b' || c = '\x0c' || c = '\r'

/-- Python `s.strip()`: remove leading and trailing whitespace. -/
def pyStrip (l : List Char) : List Char :=
  ((l.dropWhile pyIsSpace).reverse.dropWhile pyIsSpace).reverse

/-- Python `s.strip()` on `String`. -/
def pyStripS (s : String) : String :=
  String.mk (pyStrip s.data)

/-- Normalize a (possibly negative) Python slice index against a length. -/
def pyIndex (len : Nat) (i : Int) : Nat :=
  if i < 0 then (len + i).toNat else min i.toNat len

/-- Python slice `l[i:j]` with full negative-index semantics. -/
def pySlice (l : List Char) (i j : Int) : List Char :=
  (l.take (pyIndex l.length j)).drop (pyIndex l.length i)

/-- Python `s[:n]` on `String` for a possibly negative `n`. -/
def pyTakeS (s : String) (n : Int) : String :=
  String.mk (s.data.take (pyIndex s.data.length n))

/-- Python `s.rfind(pat)`: the greatest index at which `pat` occurs in `l`,
`none` standing for Python result `-1`. -/
def pyRfind (l pat : List Char) : Option Nat :=
  ((List.range (l.length + 1)).reverse).find? (fun i => pat.isPrefixOf (l.drop i))

/-! ### DocumentProcessor (src/app/document_processor.py)

`ProcessorConfig` holds the two constructor arguments of `DocumentProcessor`
(defaults 500 and 50, also the values in `app/config.py`). -/

structure ProcessorConfig where
  chunkSize : Nat
  chunkOverlap : Nat

/-- `_find_sentence_boundary(text, start, end)`: search the last fifth of the
window for the last occurrence of the first delimiter (in priority order)
that occurs, returning the position just after it, else the original end. -/
def find_sentence_boundary (cfg : ProcessorConfig) (text : List Char) (start end_ : Int) : Int :=
  let searchStart : Int := end_ - (cfg.chunkSize / 5 : Nat)
  let searchText := pySlice text searchStart end_
  let delims : List (List Char) :=
    [['.', ' '], ['.', '\n'], ['!', ' '], ['!', '\n'], ['?', ' '], ['?', '\n']]
  match delims.findSome? (fun d => (pyRfind searchText d).map
      (fun pos => searchStart + (pos : Int) + (d.length : Nat))) with
  | some r => r
  | none => end_

/-- The end of the current window: `end = start + chunk_size`, snapped to a
sentence boundary when the candidate end lies strictly inside the text
(lines 168-175 of `_chunk_text`). -/
def window_end (cfg : ProcessorConfig) (text : List Char) (start : Int) : Int :=
  let end0 : Int := start + (cfg.chunkSize : Nat)
  if end0 < (text.length : Int) then
    let se := find_sentence_boundary cfg text start end0
    if start < se then se else end0
  else end0

/-- The `while start < len(text)` loop of `_chunk_text`, with explicit fuel.
Fuel exhaustion (the `FUEL` error) is reachable only for `chunk_size = 0`,
where the Python loop never terminates.  Note the loop guard
`if start <= chunks[-1] if chunks else False`: when `chunks` is non-empty it
compares an `int` with a `str`, which raises `TypeError` in Python 3. -/
def chunkTextGo (cfg : ProcessorConfig) (text : List Char) :
    Nat → Int → List (List Char) → Except String (List (List Char))
  | 0, _, _ => .error "FUEL"
  | fuel + 1, start, chunks =>
    if start < (text.length : Int) then
      let end1 : Int := window_end cfg text start
      let chunk := pyStrip (pySlice text start end1)
      let chunks1 := if chunk.isEmpty then chunks else chunks ++ [chunk]
      let start1 := end1 - (cfg.chunkOverlap : Nat)
      if chunks1.isEmpty then chunkTextGo cfg text fuel start1 chunks1
      else .error "TypeError: <= not supported between instances of int and str"
    else .ok chunks

/-- `_chunk_text(text)` on `List Char`. -/
def chunkTextL (cfg : ProcessorConfig) (text : List Char) : Except String (List (List Char)) :=
  let t := pyStrip text
  if t.length ≤ cfg.chunkSize then .ok [t]
  else chunkTextGo cfg t (t.length + 1) 0 []

/-- `_chunk_text(text)`. -/
def chunk_text (cfg : ProcessorConfig) (text : String) : Except String (List String) :=
  (chunkTextL cfg text.data).map (fun l => l.map (fun cs => String.mk cs))

/-! ### PDF processing (`process_pdf_file`, lines 70-134)

A page of the PDF is modelled by what `page.extract_text()` does for it:
`none` when the call raises (the page failure that is logged and skipped)
and `some t` when it returns text `t` (an empty `t` is falsy and is not
appended).  The loop `for page_num, page in enumerate(reader.pages, start=1)`
with its `try/except: continue` becomes `extract_pages` below. -/

structure ChunkRec where
  chunkIndex : Nat
  content : String
  pageNumber : Option Nat
  filename : String
  totalPages : Nat
deriving DecidableEq

/-- The page-extraction loop: returns `page_texts` and `full_text`. -/
def extract_pages : Nat → List (Option String) → List (Nat × String) × String
  | _, [] => ([], "")
  | n, p :: rest =>
    match p with
    | none => extract_pages (n + 1) rest
    | some t =>
      if t = "" then extract_pages (n + 1) rest
      else
        let r := extract_pages (n + 1) rest
        ((n, t) :: r.1, "\n\n[Page " ++ toString n ++ "]\n" ++ t ++ r.2)

/-- `_estimate_page_number(chunk, page_texts)`: first page whose marker
occurs in the chunk. -/
def estimate_page_number (chunk : String) (pageTexts : List (Nat × String)) : Option Nat :=
  (pageTexts.find? (fun pt =>
    (pyRfind chunk.data ("[Page " ++ toString pt.1 ++ "]").data).isSome)).map
    (fun pt => pt.1)

/-- `process_pdf_file(content, filename)` from the extracted pages onward.
`.error` is the `ValueError` re-raised by the outer handler; the
no-usable-text case logs an error and returns the empty chunk list. -/
def process_pdf_file (cfg : ProcessorConfig) (pages : List (Option String))
    (filename : String) : Except String (List ChunkRec) :=
  let ex := extract_pages 1 pages
  if pyStripS ex.2 = "" then .ok []
  else
    match chunk_text cfg (pyStripS ex.2) with
    | .error e => .error ("Failed to process PDF: " ++ e)
    | .ok chunks =>
      .ok (chunks.enum.map (fun ic =>
        ⟨ic.1, ic.2, estimate_page_number ic.2 ex.1, filename, pages.length⟩))

/-- The upload endpoint check in `app/main.py` lines 137-138:
`if not chunks: raise HTTPException(400, "Failed to process document")`. -/
def upload_chunk_gate (chunks : List ChunkRec) : Except String (List ChunkRec) :=
  if chunks.isEmpty then .error "Failed to process document" else .ok chunks

/-! ### ContextManager (src/app/memory/context_manager.py)

The tokenizer (`tiktoken`) and the summarization model call are external
collaborators and are fields of the embedded manager; `summarize_llm`
returning `none` models the OpenAI call raising. -/

inductive MessageRole
  | user
  | assistant
  | system
deriving DecidableEq

/-- `MessageRole.value` (`app/models.py`). -/
def MessageRole.value : MessageRole → String
  | .user => "user"
  | .assistant => "assistant"
  | .system => "system"

/-- `Message` (`app/models.py`): the fields the context manager reads, with
the timestamp abstracted to a number; the `metadata` field, which none of
the embedded functions touches, is omitted. -/
structure Message where
  role : MessageRole
  content : String
  timestamp : Nat
deriving DecidableEq

structure ContextManager where
  count_tokens : String → Nat
  max_tokens : Nat
  summarize_llm : List Message → Int → Option String

/-- `count_messages_tokens`: role tokens + content tokens + 4 per message. -/
def count_messages_tokens (cm : ContextManager) (messages : List Message) : Nat :=
  (messages.map (fun m => cm.count_tokens m.role.value + cm.count_tokens m.content + 4)).sum

/-- `_summarize_messages`: the LLM summary, or on any exception the
deterministic fallback built from the first 3 messages. -/
def summarize_messages (cm : ContextManager) (messages : List Message) (maxTok : Int) : String :=
  match cm.summarize_llm messages maxTok with
  | some s => s
  | none =>
    "Earlier conversation covered: " ++
      String.intercalate ", " ((messages.take 3).map (fun m => m.content.take 50)) ++ "..."

/-- Python `int()` truncation toward zero of an exact rational. -/
def pyTruncQ (q : ℚ) : Int := q.num / (q.den : Int)

/-- `_compress_context(context, max_tokens)`.  The source computes
`ratio = max_tokens / current_tokens` in floating point; it is modelled by
the exact rational (the rounding slack is immaterial here: no claim
constrains the truncation point).  Python would raise `ZeroDivisionError`
when `current_tokens = 0`, but the compression branch only runs on a truthy
(non-empty) `additional_context`, and `tiktoken` assigns a non-empty text
at least one token, so that corner is unreachable and the model keeps the
function total. -/
def compress_context (cm : ContextManager) (context : String) (maxTok : Int) : String :=
  let current := cm.count_tokens context
  if (current : Int) ≤ maxTok then context
  else
    let ratio : ℚ := (maxTok : ℚ) / (current : ℚ)
    let truncateAt : Int := pyTruncQ ((context.length : ℚ) * ratio * (9 / 10))
    pyTakeS context truncateAt ++ "...\n[Context truncated due to length]"

/-- Python truthiness of an optional string (`None` and `""` are falsy). -/
def pyTruthyS (o : Option String) : Bool :=
  !(o.getD "").isEmpty

/-- `messages[-preserve_recent:] if len(messages) > preserve_recent else messages`
(note Python `l[-0:]` is the whole list). -/
def recent_messages (messages : List Message) (preserveRecent : Nat) : List Message :=
  if preserveRecent < messages.length then
    (if preserveRecent = 0 then messages else messages.drop (messages.length - preserveRecent))
  else messages

/-- `messages[:-preserve_recent] if len(messages) > preserve_recent else []`
(note Python `l[:-0]` is the empty list). -/
def older_messages (messages : List Message) (preserveRecent : Nat) : List Message :=
  if preserveRecent < messages.length then
    (if preserveRecent = 0 then [] else messages.take (messages.length - preserveRecent))
  else []

/-- `count_tokens(additional_context) if additional_context else 0`. -/
def additional_tokens_of (cm : ContextManager) (additional : Option String) : Nat :=
  match additional with
  | some s => if s = "" then 0 else cm.count_tokens s
  | none => 0

/-- `available_tokens = max_tokens - recent_tokens - additional_tokens`. -/
def available_tokens_of (cm : ContextManager) (messages : List Message)
    (additional : Option String) (preserveRecent : Nat) : Int :=
  (cm.max_tokens : Int) - (count_messages_tokens cm (recent_messages messages preserveRecent) : Nat)
    - (additional_tokens_of cm additional : Nat)

/-- Lines 84-102 of `optimize_context`: choose the kept messages, the
summary prefix and the pre-compression total. -/
def select_phase (cm : ContextManager) (messages : List Message)
    (additional : Option String) (preserveRecent : Nat) : List Message × String × Nat :=
  let recent := recent_messages messages preserveRecent
  let older := older_messages messages preserveRecent
  let recentTokens := count_messages_tokens cm recent
  let additionalTokens := additional_tokens_of cm additional
  let available := available_tokens_of cm messages additional preserveRecent
  if 0 < available ∧ older ≠ [] then
    let olderTokens := count_messages_tokens cm older
    if (olderTokens : Int) ≤ available then
      (messages, "", recentTokens + olderTokens + additionalTokens)
    else
      let summary := summarize_messages cm older (available.fdiv 2)
      (recent, "Previous conversation summary: " ++ summary ++ "\n\n",
        recentTokens + cm.count_tokens summary + additionalTokens)
  else (recent, "", recentTokens + additionalTokens)

/-- Lines 105-111 of `optimize_context`: compress the additional context
when the running total exceeds the budget. -/
def compress_phase (cm : ContextManager) (optimized : List Message)
    (additional : Option String) (total : Nat) : Option String × Nat :=
  if cm.max_tokens < total ∧ pyTruthyS additional then
    let compressed := compress_context cm (additional.getD "")
      ((cm.max_tokens : Int) - (count_messages_tokens cm optimized : Nat))
    (some compressed, count_messages_tokens cm optimized + cm.count_tokens compressed)
  else (additional, total)

/-- The returned triple of `optimize_context`: the kept messages, the string
`context_summary + (additional_context or "")` and the total token count.
The `summary` field additionally records the `context_summary` local on its
own, so that statements can speak about the summary prefix. -/
structure OptimizedContext where
  messages : List Message
  summary : String
  context : String
  total_tokens : Nat
deriving DecidableEq

/-- `optimize_context(messages, additional_context, preserve_recent)`. -/
def optimize_context (cm : ContextManager) (messages : List Message)
    (additional : Option String) (preserveRecent : Nat) : OptimizedContext :=
  if messages.isEmpty then ⟨[], "", additional.getD "", 0⟩
  else
    let s := select_phase cm messages additional preserveRecent
    let c := compress_phase cm s.1 additional s.2.2
    ⟨s.1, s.2.1, s.2.1 ++ c.1.getD "", c.2⟩

/-! ### HybridSearchEngine (src/app/search/hybrid_search.py)

The OpenAI embedding client and the Typesense index are external
collaborators (`SearchEnv`); `none` models a raised exception.  A run
returns the formatted results together with the trace of collaborator
calls actually issued, so that statements can speak about which queries
were sent.  The rendered `vector_query` string is modelled by its
components (`VectorQuery`). -/

inductive SearchStrategy
  | keyword
  | semantic
  | hybrid
deriving DecidableEq

structure VectorQuery where
  embedding : List ℚ
  k : Nat
  alpha : Option ℚ
deriving DecidableEq

structure SearchParams where
  q : String
  query_by : String
  per_page : Nat
  include_fields : String
  filter_by : Option String
  query_by_weights : Option String
  vector_query : Option VectorQuery
deriving DecidableEq

structure Hit where
  id : String
  document_id : String
  document_name : String
  content : String
  chunk_index : Option Int
  page_number : Option Int
  text_match : Option ℚ
  vector_distance : Option ℚ
deriving DecidableEq

structure SearchResponse where
  hits : List Hit
deriving DecidableEq

structure SearchResult where
  chunk_id : String
  document_id : String
  document_name : String
  content : String
  chunk_index : Int
  page_number : Option Int
  relevance_score : ℚ
  text_match_score : ℚ
deriving DecidableEq

inductive CollabEvent
  | embedCall (input : String)
  | searchCall (params : SearchParams)
deriving DecidableEq

structure SearchEnv where
  embed : String → Option (List ℚ)
  search : SearchParams → Option SearchResponse

def includeFieldsStr : String :=
  "id,document_id,document_name,content,chunk_index,page_number"

/-- Lines 150-174: the `search_params` dict as sent to the index, after the
strategy-specific mutation.  `document_filter` is added only when truthy. -/
def build_search_params (strategy : SearchStrategy) (query : String) (maxResults : Nat)
    (semanticWeight : ℚ) (documentFilter : Option String) (emb : List ℚ) : SearchParams :=
  let filterBy : Option String :=
    match documentFilter with
    | some f => if f = "" then none else some ("document_id:=" ++ f)
    | none => none
  match strategy with
  | .keyword => ⟨query, "content", maxResults, includeFieldsStr, filterBy, some "1", none⟩
  | .semantic =>
    ⟨"*", "content", maxResults, includeFieldsStr, filterBy, none, some ⟨emb, maxResults, none⟩⟩
  | .hybrid =>
    ⟨query, "content", maxResults, includeFieldsStr, filterBy, none,
      some ⟨emb, maxResults, some semanticWeight⟩⟩

/-- Lines 181-192: result shaping.  `relevance_score` is
`hit.get("vector_distance", hit.get("text_match", 0))`. -/
def format_hit (h : Hit) : SearchResult :=
  ⟨h.id, h.document_id, h.document_name, h.content, h.chunk_index.getD 0, h.page_number,
    h.vector_distance.getD (h.text_match.getD 0), h.text_match.getD 0⟩

/-- `hybrid_search(query, strategy, max_results, keyword_weight,
semantic_weight, document_filter)`.  The whole body is wrapped in
`try/except: return []`, so the function is total and a collaborator
exception yields the empty result list.  The second component is the trace
of collaborator calls; the embedding call is issued before the strategy is
inspected (line 143).  `keyword_weight` is accepted and never used, as in
the source. -/
def hybrid_search (env : SearchEnv) (query : String) (strategy : SearchStrategy)
    (maxResults : Nat) (keywordWeight semanticWeight : ℚ) (documentFilter : Option String) :
    List SearchResult × List CollabEvent :=
  match env.embed query with
  | none => ([], [.embedCall query])
  | some emb =>
    let params := build_search_params strategy query maxResults semanticWeight documentFilter emb
    match env.search params with
    | none => ([], [.embedCall query, .searchCall params])
    | some resp => (resp.hits.map format_hit, [.embedCall query, .searchCall params])

/-! ### Basic properties of the Python string helpers -/

lemma dropWhile_head_not {p : Char → Bool} :
    ∀ (l : List Char) (c : Char) (r : List Char), l.dropWhile p = c :: r → p c = false := by
  intro l
  induction l with
  | nil => intro c r h; simp [List.dropWhile] at h
  | cons a t ih =>
    intro c r h
    by_cases hp : p a
    · rw [List.dropWhile_cons_of_pos hp] at h; exact ih c r h
    · rw [List.dropWhile_cons_of_neg hp] at h
      cases h; simpa using hp

lemma dropWhile_forall_iff {p : Char → Bool} (l : List Char) :
    (∀ x ∈ l.dropWhile p, p x) ↔ ∀ x ∈ l, p x := by
  induction l with
  | nil => simp
  | cons a t ih =>
    by_cases hp : p a
    · rw [List.dropWhile_cons_of_pos hp]
      simp only [List.mem_cons]
      constructor
      · intro h x hx
        rcases hx with rfl | hx
        · exact hp
        · exact ih.mp h x hx
      · intro h x hx
        exact ih.mpr (fun y hy => h y (Or.inr hy)) x hx
    · rw [List.dropWhile_cons_of_neg hp]

lemma pyStrip_eq_nil_iff (l : List Char) : pyStrip l = [] ↔ ∀ c ∈ l, pyIsSpace c := by
  unfold pyStrip
  rw [List.reverse_eq_nil_iff, List.dropWhile_eq_nil_iff]
  constructor
  · intro h
    rw [← dropWhile_forall_iff (p := pyIsSpace) l]
    intro x hx
    exact h x (by simpa using hx)
  · intro h x hx
    exact h x ((List.dropWhile_suffix pyIsSpace).subset (by simpa using hx))

lemma pyStrip_ne_nil_of_not_space {l : List Char} {c : Char} (hc : c ∈ l)
    (hns : pyIsSpace c = false) : pyStrip l ≠ [] := by
  intro h
  rw [pyStrip_eq_nil_iff] at h
  rw [h c hc] at hns
  exact Bool.true_eq_false.mp hns

lemma pyStrip_eq_rdropWhile (l : List Char) :
    pyStrip l = List.rdropWhile pyIsSpace (l.dropWhile pyIsSpace) := rfl

lemma pyStrip_head_not_space {l : List Char} {c : Char} {r : List Char}
    (h : pyStrip l = c :: r) : pyIsSpace c = false := by
  rw [pyStrip_eq_rdropWhile] at h
  rcases (List.rdropWhile_prefix pyIsSpace (l.dropWhile pyIsSpace)) with ⟨s, hs⟩
  rw [h] at hs
  exact dropWhile_head_not l c (r ++ s) (by rw [← hs]; simp)

lemma pyStrip_idem (l : List Char) : pyStrip (pyStrip l) = pyStrip l := by
  rw [pyStrip_eq_rdropWhile (pyStrip l)]
  have h1 : (pyStrip l).dropWhile pyIsSpace = pyStrip l := by
    cases h : pyStrip l with
    | nil => simp
    | cons c r =>
      rw [List.dropWhile_cons_of_neg]
      simp [pyStrip_head_not_space h]
  rw [h1, pyStrip_eq_rdropWhile l, List.rdropWhile_idempotent]

/-! ### Properties of the chunking loop -/

/-- The loop can return a list normally only when it never appended a chunk:
after the first append the broken non-advance guard raises. -/
lemma chunkTextGo_ok_nil (cfg : ProcessorConfig) (t : List Char) :
    ∀ (fuel : Nat) (start : Int) (L : List (List Char)),
      chunkTextGo cfg t fuel start [] = .ok L → L = [] := by
  intro fuel
  induction fuel with
  | zero => intro start L h; simp [chunkTextGo] at h
  | succ n ih =>
    intro start L h
    simp only [chunkTextGo] at h
    split at h
    · by_cases hc : (pyStrip (pySlice t start (window_end cfg t start))).isEmpty
      · rw [if_pos hc] at h
        simp only [List.isEmpty_nil, if_true] at h
        exact ih _ L h
      · rw [if_neg hc] at h
        simp at h
    · exact (Except.ok.inj h).symm

lemma window_end_pos (cfg : ProcessorConfig) (t : List Char) (hcs : 1 ≤ cfg.chunkSize) :
    1 ≤ window_end cfg t 0 := by
  simp only [window_end]
  split
  · split <;> omega
  · omega

/-- When the stripped text is longer than a positive chunk size, the loop
appends a non-empty first chunk and the broken guard then raises. -/
lemma chunkTextGo_long_error (cfg : ProcessorConfig) (t : List Char) (fuel : Nat)
    (hcs : 1 ≤ cfg.chunkSize) (hstrip : pyStrip t = t) (hlen : cfg.chunkSize < t.length) :
    chunkTextGo cfg t (fuel + 1) 0 [] =
      .error "TypeError: <= not supported between instances of int and str" := by
  have hne : t ≠ [] := by
    intro h
    rw [h] at hlen
    simp at hlen
  obtain ⟨c, r, hcr⟩ : ∃ c r, t = c :: r := by
    cases t with
    | nil => exact absurd rfl hne
    | cons c r => exact ⟨c, r, rfl⟩
  have hns : pyIsSpace c = false := pyStrip_head_not_space (by rw [← hcr]; rw [hstrip, hcr])
  have hend1 : 1 ≤ window_end cfg t 0 := window_end_pos cfg t hcs
  have hbpos : 1 ≤ pyIndex t.length (window_end cfg t 0) := by
    unfold pyIndex
    rw [if_neg (by omega)]
    have h1 : 1 ≤ (window_end cfg t 0).toNat := by omega
    have h2 : 1 ≤ t.length := by rw [hcr]; simp
    omega
  have hmem : c ∈ pySlice t 0 (window_end cfg t 0) := by
    unfold pySlice
    have h0 : pyIndex t.length 0 = 0 := by
      unfold pyIndex
      simp
    rw [h0, List.drop_zero]
    obtain ⟨b, hb⟩ : ∃ b, pyIndex t.length (window_end cfg t 0) = b + 1 :=
      ⟨pyIndex t.length (window_end cfg t 0) - 1, by omega⟩
    rw [hb, hcr, List.take_succ_cons]
    exact List.mem_cons_self c _
  have hchunk : pyStrip (pySlice t 0 (window_end cfg t 0)) ≠ [] :=
    pyStrip_ne_nil_of_not_space hmem hns
  simp only [chunkTextGo]
  rw [if_pos (show (0 : Int) < t.length by rw [hcr]; simp)]
  rw [if_neg
    (show ¬ (pyStrip (pySlice t 0 (window_end cfg t 0))).isEmpty = true by simpa using hchunk)]
  rw [if_neg (by simp)]

lemma chunkTextL_short (cfg : ProcessorConfig) (text : List Char)
    (h : (pyStrip text).length ≤ cfg.chunkSize) :
    chunkTextL cfg text = .ok [pyStrip text] := by
  simp only [chunkTextL]
  rw [if_pos h]

lemma chunkTextL_long (cfg : ProcessorConfig) (text : List Char)
    (hcs : 1 ≤ cfg.chunkSize) (hlen : cfg.chunkSize < (pyStrip text).length) :
    chunkTextL cfg text =
      .error "TypeError: <= not supported between instances of int and str" := by
  simp only [chunkTextL]
  rw [if_neg (by omega)]
  obtain ⟨n, hn⟩ : ∃ n, (pyStrip text).length = n + 1 :=
    ⟨(pyStrip text).length - 1, by omega⟩
  rw [hn]
  exact chunkTextGo_long_error cfg (pyStrip text) (n + 1) hcs (pyStrip_idem text) hlen

lemma chunk_text_short (cfg : ProcessorConfig) (text : String)
    (h : (pyStrip text.data).length ≤ cfg.chunkSize) :
    chunk_text cfg text = .ok [String.mk (pyStrip text.data)] := by
  unfold chunk_text
  rw [chunkTextL_short cfg text.data h]
  rfl

lemma chunk_text_long (cfg : ProcessorConfig) (text : String)
    (hcs : 1 ≤ cfg.chunkSize) (hlen : cfg.chunkSize < (pyStrip text.data).length) :
    chunk_text cfg text =
      .error "TypeError: <= not supported between instances of int and str" := by
  unfold chunk_text
  rw [chunkTextL_long cfg text.data hcs hlen]
  rfl

/-- A normally returned chunk list is either the single stripped text (short
input) or empty (the loop never appended anything). -/
lemma chunk_text_ok_cases (cfg : ProcessorConfig) (text : String) (L : List String)
    (hok : chunk_text cfg text = .ok L) :
    L = [String.mk (pyStrip text.data)] ∨ L = [] := by
  by_cases h : (pyStrip text.data).length ≤ cfg.chunkSize
  · rw [chunk_text_short cfg text h] at hok
    exact Or.inl (Except.ok.inj hok).symm
  · unfold chunk_text at hok
    cases hgo : chunkTextL cfg text.data with
    | error e => rw [hgo] at hok; simp [Except.map] at hok
    | ok L0 =>
      rw [hgo] at hok
      have hL0 : L0 = [] := by
        have hthis := hgo
        simp only [chunkTextL] at hthis
        rw [if_neg h] at hthis
        exact chunkTextGo_ok_nil cfg (pyStrip text.data) _ 0 L0 hthis
      subst hL0
      simp [Except.map] at hok
      exact Or.inr hok

/-! ### Properties of the PDF pipeline -/

lemma pyStripS_eq_empty_iff (s : String) : pyStripS s = "" ↔ pyStrip s.data = [] := by
  constructor
  · intro h
    have hd := congrArg String.data h
    simpa [pyStripS] using hd
  · intro h
    unfold pyStripS
    rw [h]

lemma extract_pages_skip (l1 l2 : List (Option String)) :
    ∀ n, extract_pages n (l1 ++ none :: l2) = extract_pages n (l1 ++ some "" :: l2) := by
  induction l1 with
  | nil =>
    intro n
    simp [extract_pages]
  | cons p rest ih =>
    intro n
    cases p with
    | none => simp [extract_pages, ih]
    | some t =>
      by_cases ht : t = "" <;> simp [extract_pages, ht, ih]

lemma process_pdf_skip (cfg : ProcessorConfig) (fn : String) (l1 l2 : List (Option String)) :
    process_pdf_file cfg (l1 ++ none :: l2) fn = process_pdf_file cfg (l1 ++ some "" :: l2) fn := by
  unfold process_pdf_file
  rw [extract_pages_skip l1 l2 1]
  simp [List.length_append]

lemma process_pdf_nil_of_strip (cfg : ProcessorConfig) (fn : String)
    (pages : List (Option String)) (h : pyStripS (extract_pages 1 pages).2 = "") :
    process_pdf_file cfg pages fn = .ok [] := by
  unfold process_pdf_file
  simp [h]

lemma process_pdf_ne_nil (cfg : ProcessorConfig) (fn : String)
    (pages : List (Option String)) (hcs : 1 ≤ cfg.chunkSize)
    (h : pyStripS (extract_pages 1 pages).2 ≠ "") :
    process_pdf_file cfg pages fn ≠ .ok [] := by
  unfold process_pdf_file
  simp only []
  rw [if_neg h]
  intro hok
  set s := pyStripS (extract_pages 1 pages).2 with hs
  have hsdata : pyStrip s.data = s.data := by
    rw [hs]
    unfold pyStripS
    simp [pyStrip_idem]
  by_cases hl : (pyStrip s.data).length ≤ cfg.chunkSize
  · rw [chunk_text_short cfg s hl] at hok
    simp at hok
  · rw [chunk_text_long cfg s hcs (by omega)] at hok
    simp at hok

/-! ### Claims about the chunker and the PDF pipeline -/

/-- C1: the claim states that for `overlap < chunk_size` the chunking loop
terminates within `ceil(len/(chunk_size-overlap)) + 1` iterations returning
a finite list, the guard forcing `start = end` on non-advancing steps.  The
code instead raises on every input longer than `chunk_size`: the guard
`if start <= chunks[-1] if chunks else False` compares the integer `start`
with the previous chunk text (a `str`), a `TypeError` in Python 3, so the
loop aborts during its first iteration.  Evaluation at `chunk_size = 5`,
`overlap = 2`, `text = "abcdefgh"` (a failing input for the claim). -/
theorem chunk_text_guard_typeerror :
    chunk_text ⟨5, 2⟩ "abcdefgh" =
      .error "TypeError: <= not supported between instances of int and str" := by decide

/-- 12 blocks of 100 ASCII characters, each ending in a sentence end:
1,200 characters with a period every 100 characters. -/
def c6block : List Char := List.replicate 98 'a' ++ ['.', ' ']

def c6text : String := String.mk (List.flatten (List.replicate 12 c6block))

/-- C6: the claim states that `chunk_size = 500, overlap = 50` on this
1,200-character input yields exactly 3 chunks of at most 500 characters
with non-empty overlaps.  That is what the loop was intended to do, but the
broken non-advance guard (see C1) raises `TypeError` at the end of the
first iteration, so the code produces no chunk list at all for this
input. -/
theorem chunk_text_scenario_1200 :
    c6text.length = 1200 ∧
    chunk_text ⟨500, 50⟩ c6text =
      .error "TypeError: <= not supported between instances of int and str" := by decide

/-- C9 (counterexample): the claim states that no element of a returned
chunk list is empty after trimming.  On the empty (or all-whitespace) input
the `len(text) <= chunk_size` early return emits the trimmed text itself as
a single chunk without the emptiness check, so `_chunk_text("")` returns
`[""]`, a chunk list whose element is empty. -/
theorem chunk_text_empty_chunk_cex :
    chunk_text ⟨500, 50⟩ "" = .ok [""] ∧
    ((match chunk_text ⟨500, 50⟩ "" with
      | .ok L => L.all (fun c => !(pyStripS c == ""))
      | .error _ => true) = false) := by decide

/-- C9 (amended): for every input whose trimmed text is non-empty, every
chunk of a normally returned chunk list is non-empty and already trimmed
(hence non-empty after trimming).  The empty-input counterexample forces
the non-empty-input hypothesis. -/
theorem chunk_text_ok_chunks_nonempty (cfg : ProcessorConfig) (text : String) (L : List String)
    (hts : pyStripS text ≠ "") (hok : chunk_text cfg text = .ok L) :
    L.all (fun c => !(c == "") && (pyStripS c == c)) = true := by
  rcases chunk_text_ok_cases cfg text L hok with h | h
  · subst h
    have ht : pyStrip text.data ≠ [] := by
      intro hnil
      exact hts ((pyStripS_eq_empty_iff text).mpr hnil)
    have h1 : (String.mk (pyStrip text.data) == "") = false := by
      apply beq_eq_false_iff_ne.mpr
      intro hmk
      exact ht (by simpa using congrArg String.data hmk)
    have h2 : pyStripS (String.mk (pyStrip text.data)) = String.mk (pyStrip text.data) := by
      unfold pyStripS
      simp [pyStrip_idem]
    simp [h1, h2]
  · subst h
    rfl

/-- C9 (witness): the amended theorem applied at `chunk_size = 5`,
`overlap = 2`, `text = " hi "`, whose chunk list is `["hi"]`. -/
theorem chunk_text_ok_chunks_nonempty_inst :
    (["hi"] : List String).all (fun c => !(c == "") && (pyStripS c == c)) = true :=
  chunk_text_ok_chunks_nonempty ⟨5, 2⟩ " hi " ["hi"] (by decide) (by decide)

/-- C8: per-page failure policy of `process_pdf_file`.  A page whose
`extract_text()` raises is skipped exactly like a page with empty text,
processing continuing with the remaining pages; the processed document
yields the empty chunk list exactly when the concatenated extraction
strips to nothing (so the empty list is a faithful no-usable-text signal,
distinguishable from degraded success, which always carries at least one
chunk); and the upload endpoint turns that empty list into an HTTP 400
error for the caller. -/
theorem process_pdf_failure_policy (cfg : ProcessorConfig) (fn : String)
    (l1 l2 pages : List (Option String)) (hcs : 1 ≤ cfg.chunkSize) :
    process_pdf_file cfg (l1 ++ none :: l2) fn = process_pdf_file cfg (l1 ++ some "" :: l2) fn ∧
    (process_pdf_file cfg pages fn = .ok [] ↔ pyStripS (extract_pages 1 pages).2 = "") ∧
    upload_chunk_gate [] = .error "Failed to process document" := by
  refine ⟨process_pdf_skip cfg fn l1 l2, ?_, rfl⟩
  by_cases h : pyStripS (extract_pages 1 pages).2 = ""
  · exact iff_of_true (process_pdf_nil_of_strip cfg fn pages h) h
  · exact iff_of_false (process_pdf_ne_nil cfg fn pages hcs h) h

/-- C8 (witness): the failure-policy theorem at `chunk_size = 500`,
`overlap = 50`, a failing first page followed by a good page, and a
document whose only page fails. -/
theorem process_pdf_failure_policy_inst :
    process_pdf_file ⟨500, 50⟩ ([] ++ none :: [some "Hi."]) "doc.pdf" =
      process_pdf_file ⟨500, 50⟩ ([] ++ some "" :: [some "Hi."]) "doc.pdf" ∧
    (process_pdf_file ⟨500, 50⟩ [none] "doc.pdf" = .ok [] ↔
      pyStripS (extract_pages 1 [none]).2 = "") ∧
    upload_chunk_gate [] = .error "Failed to process document" :=
  process_pdf_failure_policy ⟨500, 50⟩ "doc.pdf" [] [some "Hi."] [none] (by decide)

/-! ### Properties of the context optimizer -/

lemma older_append_recent (messages : List Message) (pr : Nat) :
    older_messages messages pr ++ recent_messages messages pr = messages := by
  unfold older_messages recent_messages
  by_cases h : pr < messages.length
  · rw [if_pos h, if_pos h]
    by_cases h0 : pr = 0
    · simp [h0]
    · rw [if_neg h0, if_neg h0]
      exact List.take_append_drop _ _
  · rw [if_neg h, if_neg h]
    simp

lemma count_messages_tokens_append (cm : ContextManager) (a b : List Message) :
    count_messages_tokens cm (a ++ b) =
      count_messages_tokens cm a + count_messages_tokens cm b := by
  simp [count_messages_tokens]

/-- Every message contributes its fixed framing overhead of 4 tokens. -/
lemma count_messages_tokens_pos (cm : ContextManager) {l : List Message} (h : l ≠ []) :
    4 ≤ count_messages_tokens cm l := by
  cases l with
  | nil => exact absurd rfl h
  | cons m r =>
    simp only [count_messages_tokens, List.map_cons, List.sum_cons]
    omega

/-- C10: with an empty message list `optimize_context` returns immediately:
no messages, the additional context unchanged (empty string when absent)
and a reported total of 0 tokens, whatever the additional context is: no
compression or truncation is applied on this path. -/
theorem optimize_context_empty_messages (cm : ContextManager) (additional : Option String)
    (pr : Nat) :
    optimize_context cm [] additional pr = ⟨[], "", additional.getD "", 0⟩ := rfl

/-- A manager whose tokenizer counts characters, with budget 100. -/
def cmLen100 : ContextManager := ⟨String.length, 100, fun _ _ => some "SUMMARY"⟩

def mkUserMsg (c : String) : Message := ⟨.user, c, 0⟩

/-- Four user messages of 18 tokens each under the length tokenizer. -/
def msgs4 : List Message :=
  [mkUserMsg "aaaaaaaaaa", mkUserMsg "bbbbbbbbbb", mkUserMsg "cccccccccc", mkUserMsg "dddddddddd"]

def ctx40 : String := String.mk (List.replicate 40 'x')

/-- C4 (counterexample): the claim states that whenever the total message
token count is at most `max_tokens`, all messages come back unmodified with
an empty summary, for any additional context.  With `count_tokens = length`,
`max_tokens = 100`, four messages of 72 message tokens total and a
40-character additional context, `available = 100 - 54 - 40 = 6` is smaller
than the 18 older-message tokens, so the summarization path runs: only the
3 recent messages are returned and the summary is non-empty, although the
message tokens (72) fit the budget. -/
theorem optimize_context_drops_messages_cex :
    count_messages_tokens cmLen100 msgs4 ≤ cmLen100.max_tokens ∧
    (optimize_context cmLen100 msgs4 (some ctx40) 3).messages ≠ msgs4 ∧
    (optimize_context cmLen100 msgs4 (some ctx40) 3).summary ≠ "" := by decide

/-- C4 (amended): when the message tokens and the additional-context tokens
together fit `max_tokens`, `optimize_context` keeps every message in order,
produces no summary, and passes the additional context through unchanged.
The counterexample forces the additional-context tokens into the budget
hypothesis. -/
theorem optimize_context_within_budget (cm : ContextManager) (messages : List Message)
    (additional : Option String) (pr : Nat)
    (h : count_messages_tokens cm messages + additional_tokens_of cm additional ≤
      cm.max_tokens) :
    (optimize_context cm messages additional pr).messages = messages ∧
    (optimize_context cm messages additional pr).summary = "" ∧
    (optimize_context cm messages additional pr).context = additional.getD "" := by
  by_cases hnil : messages = []
  · subst hnil
    exact ⟨rfl, rfl, rfl⟩
  · have hsum : count_messages_tokens cm (older_messages messages pr) +
        count_messages_tokens cm (recent_messages messages pr) =
        count_messages_tokens cm messages := by
      rw [← count_messages_tokens_append, older_append_recent]
    have hsel : select_phase cm messages additional pr =
        (messages, "",
          count_messages_tokens cm messages + additional_tokens_of cm additional) := by
      by_cases hold : older_messages messages pr = []
      · have hrec : recent_messages messages pr = messages := by
          have hx := older_append_recent messages pr
          rw [hold] at hx
          simpa using hx
        simp only [select_phase]
        rw [if_neg (by simp [hold])]
        rw [hrec]
      · have hop : 4 ≤ count_messages_tokens cm (older_messages messages pr) :=
          count_messages_tokens_pos cm hold
        have hcond : 0 < available_tokens_of cm messages additional pr ∧
            older_messages messages pr ≠ [] := by
          refine ⟨?_, hold⟩
          unfold available_tokens_of
          omega
        simp only [select_phase]
        rw [if_pos hcond]
        rw [if_pos (show (count_messages_tokens cm (older_messages messages pr) : Int) ≤
            available_tokens_of cm messages additional pr by
          unfold available_tokens_of
          omega)]
        rw [show count_messages_tokens cm (recent_messages messages pr) +
            count_messages_tokens cm (older_messages messages pr) +
            additional_tokens_of cm additional =
            count_messages_tokens cm messages + additional_tokens_of cm additional by omega]
    have hcomp : compress_phase cm messages additional
        (count_messages_tokens cm messages + additional_tokens_of cm additional) =
        (additional,
          count_messages_tokens cm messages + additional_tokens_of cm additional) := by
      unfold compress_phase
      rw [if_neg (by
        intro hcontra
        exact absurd hcontra.1 (by omega))]
    unfold optimize_context
    rw [if_neg (by simpa using hnil)]
    simp only [hsel, hcomp]
    simp

def cmLenW : ContextManager := ⟨String.length, 100, fun _ _ => some "S"⟩

def msgs2 : List Message := [mkUserMsg "a", mkUserMsg "b"]

/-- C4 (witness): two messages of 18 tokens and a 2-token additional
context against a budget of 100. -/
theorem optimize_context_within_budget_inst :
    (optimize_context cmLenW msgs2 (some "xy") 3).messages = msgs2 ∧
    (optimize_context cmLenW msgs2 (some "xy") 3).summary = "" ∧
    (optimize_context cmLenW msgs2 (some "xy") 3).context = (some "xy").getD "" :=
  optimize_context_within_budget cmLenW msgs2 (some "xy") 3 (by decide)

def cmLen10 : ContextManager := ⟨String.length, 10, fun _ _ => some "S"⟩

/-- C5 (counterexample): the claim states that whenever the older-message
tokens exceed the available budget the summarization path runs, producing a
non-empty prefix summary.  With `count_tokens = length` and
`max_tokens = 10`, the 3 recent messages alone already exceed the budget:
`available = 10 - 54 - 0 < 0 < 18 = older tokens`, yet the code takes the
no-summary branch (`available_tokens > 0` fails), so the prefix summary is
empty. -/
theorem optimize_context_no_summary_cex :
    msgs4 ≠ [] ∧
    available_tokens_of cmLen10 msgs4 none 3 <
      (count_messages_tokens cmLen10 (older_messages msgs4 3) : Int) ∧
    (optimize_context cmLen10 msgs4 none 3).summary = "" := by decide

/-- C5 (amended): when the messages are non-empty, the available budget is
positive, and the older-message tokens exceed it, `optimize_context` keeps
exactly the 3 most recent messages verbatim and in order and produces the
non-empty `"Previous conversation summary: ..."` prefix built from the
summarization collaborator on the older messages with budget
`available // 2`.  The counterexample forces the positive-budget
hypothesis. -/
theorem optimize_context_summarizes_when_over (cm : ContextManager) (messages : List Message)
    (additional : Option String)
    (hne : messages ≠ [])
    (hav : 0 < available_tokens_of cm messages additional 3)
    (hex : available_tokens_of cm messages additional 3 <
      (count_messages_tokens cm (older_messages messages 3) : Int)) :
    (optimize_context cm messages additional 3).messages = recent_messages messages 3 ∧
    recent_messages messages 3 = messages.drop (messages.length - 3) ∧
    (optimize_context cm messages additional 3).summary =
      "Previous conversation summary: " ++
        summarize_messages cm (older_messages messages 3)
          ((available_tokens_of cm messages additional 3).fdiv 2) ++ "\n\n" ∧
    (optimize_context cm messages additional 3).summary ≠ "" := by
  have hold : older_messages messages 3 ≠ [] := by
    intro h0
    rw [h0] at hex
    simp [count_messages_tokens] at hex
    omega
  have hlen : 3 < messages.length := by
    by_contra hc
    apply hold
    unfold older_messages
    rw [if_neg (by omega)]
  have hrec : recent_messages messages 3 = messages.drop (messages.length - 3) := by
    unfold recent_messages
    rw [if_pos hlen, if_neg (by omega)]
  have hsel : select_phase cm messages additional 3 =
      (recent_messages messages 3,
        "Previous conversation summary: " ++
          summarize_messages cm (older_messages messages 3)
            ((available_tokens_of cm messages additional 3).fdiv 2) ++ "\n\n",
        count_messages_tokens cm (recent_messages messages 3) +
          cm.count_tokens (summarize_messages cm (older_messages messages 3)
            ((available_tokens_of cm messages additional 3).fdiv 2)) +
          additional_tokens_of cm additional) := by
    simp only [select_phase]
    rw [if_pos ⟨hav, hold⟩]
    rw [if_neg (by omega)]
  have hsummary : (optimize_context cm messages additional 3).summary =
      "Previous conversation summary: " ++
        summarize_messages cm (older_messages messages 3)
          ((available_tokens_of cm messages additional 3).fdiv 2) ++ "\n\n" := by
    unfold optimize_context
    rw [if_neg (by simpa using hne)]
    simp only [hsel]
  have hmsgs : (optimize_context cm messages additional 3).messages =
      recent_messages messages 3 := by
    unfold optimize_context
    rw [if_neg (by simpa using hne)]
    simp only [hsel]
  refine ⟨hmsgs, hrec, hsummary, ?_⟩
  rw [hsummary]
  intro hcontra
  have hlencontra := congrArg String.length hcontra
  have h31 : ("Previous conversation summary: ").length = 31 := rfl
  have hnl : ("\n\n").length = 2 := rfl
  simp [String.length_append, h31, hnl] at hlencontra

def cmLen60 : ContextManager := ⟨String.length, 60, fun _ _ => some "S"⟩

/-- C5 (witness): four messages against a budget of 60: the recent window
costs 54 tokens, `available = 6 > 0`, and the single older message costs
18 > 6, so the theorem applies. -/
theorem optimize_context_summarizes_when_over_inst :
    (optimize_context cmLen60 msgs4 none 3).messages = recent_messages msgs4 3 ∧
    recent_messages msgs4 3 = msgs4.drop (msgs4.length - 3) ∧
    (optimize_context cmLen60 msgs4 none 3).summary =
      "Previous conversation summary: " ++
        summarize_messages cmLen60 (older_messages msgs4 3)
          ((available_tokens_of cmLen60 msgs4 none 3).fdiv 2) ++ "\n\n" ∧
    (optimize_context cmLen60 msgs4 none 3).summary ≠ "" :=
  optimize_context_summarizes_when_over cmLen60 msgs4 none (by decide) (by decide) (by decide)

/-! ### Claims about hybrid search -/

/-- An index environment whose lexical queries return one hit carrying only
a text-match score, as a lexical-only Typesense query does. -/
def envKW : SearchEnv :=
  ⟨fun _ => some [1], fun _ => some ⟨[⟨"c1", "d1", "n1", "t1", some 0, none, some (1/2), none⟩]⟩⟩

def envKWcex : SearchEnv := ⟨fun _ => some [1], fun _ => some ⟨[]⟩⟩

/-- C2 (counterexample): the claim states that a KEYWORD search performs no
embedding step.  The code computes the query embedding unconditionally,
before the strategy is even inspected (line 143), so the embedding
collaborator is called on a KEYWORD run too: the call trace of a concrete
KEYWORD invocation contains the embedding call. -/
theorem keyword_search_embeds_cex :
    CollabEvent.embedCall "q" ∈ (hybrid_search envKWcex "q" .keyword 10 (1/2) (1/2) none).2 := by
  decide

/-- C2 (amended): a KEYWORD search never issues a vector query (every index
query in its trace has no `vector_query` component), and, provided the
index returns no vector distances on vector-free queries (its documented
behaviour), every returned result has `relevance_score` equal to
`text_match_score`.  The counterexample forces dropping only the
no-embedding-step conjunct: the embedding is computed (and discarded)
before the lexical-only query. -/
theorem keyword_search_lexical_only (env : SearchEnv) (query : String) (mr : Nat)
    (kw sw : ℚ) (filt : Option String)
    (hidx : ∀ p resp, p.vector_query = none → env.search p = some resp →
      ∀ h ∈ resp.hits, h.vector_distance = none) :
    ((hybrid_search env query .keyword mr kw sw filt).2.all (fun e =>
      match e with
      | .searchCall p => p.vector_query.isNone
      | .embedCall _ => true) = true) ∧
    ((hybrid_search env query .keyword mr kw sw filt).1.all (fun r =>
      r.relevance_score == r.text_match_score) = true) := by
  cases hemb : env.embed query with
  | none => simp [hybrid_search, hemb]
  | some emb =>
    cases hsearch : env.search (build_search_params .keyword query mr sw filt emb) with
    | none =>
      constructor
      · simp only [hybrid_search, hemb, hsearch]
        simp [build_search_params]
      · simp only [hybrid_search, hemb, hsearch]
        simp
    | some resp =>
      have hvd : ∀ h ∈ resp.hits, h.vector_distance = none :=
        hidx _ resp (by simp [build_search_params]) hsearch
      constructor
      · simp only [hybrid_search, hemb, hsearch]
        simp [build_search_params]
      · simp only [hybrid_search, hemb, hsearch]
        rw [List.all_eq_true]
        intro r hr
        obtain ⟨h, hh, rfl⟩ := List.mem_map.mp hr
        have := hvd h hh
        simp [format_hit, this]

/-- C2 (witness): the amended theorem at a concrete environment that
returns one text-match-only hit. -/
theorem keyword_search_lexical_only_inst :
    ((hybrid_search envKW "q" .keyword 10 (1/2) (1/2) none).2.all (fun e =>
      match e with
      | .searchCall p => p.vector_query.isNone
      | .embedCall _ => true) = true) ∧
    ((hybrid_search envKW "q" .keyword 10 (1/2) (1/2) none).1.all (fun r =>
      r.relevance_score == r.text_match_score) = true) :=
  keyword_search_lexical_only envKW "q" 10 (1/2) (1/2) none (by
    intro p resp hp hs h hh
    cases hs
    simp at hh
    subst hh
    rfl)

/-- An index environment returning two hits nearest-first, with vector
distances 1 and 9. -/
def envSem : SearchEnv :=
  ⟨fun _ => some [2],
    fun _ => some ⟨[⟨"c1", "d1", "n1", "t1", some 0, none, some 2, some 1⟩,
      ⟨"c2", "d1", "n1", "t2", some 1, none, some 2, some 9⟩]⟩⟩

/-- C3 (counterexample): the claim states that a SEMANTIC search derives
`relevance_score` from the vector distance with closer hits scoring higher,
the results ordered by descending score.  The code copies the raw
`vector_distance` into `relevance_score` unchanged (line 190), so on two
hits at distances 1 and 9 (nearest first, as the index returns them) the
scores are `[1, 9]`: the closer hit gets the lower score and the sequence
is ascending, not descending. -/
theorem semantic_search_distance_order_cex :
    (hybrid_search envSem "q" .semantic 10 (1/2) (1/2) none).1.map
      (fun r => r.relevance_score) = [1, 9] ∧
    (1 : ℚ) < 9 := by decide

/-- C3 (amended): a SEMANTIC search issues a wildcard lexical query with a
k-nearest-neighbour vector query where `k = max_results`, and each returned
result's `relevance_score` equals the hit's raw vector distance (so a
closer hit gets a lower score); the returned sequence preserves the index's
hit order, so with hits nearest-first the scores are ascending.  The
counterexample forces only the direction of the score ordering. -/
theorem semantic_search_shape (env : SearchEnv) (q : String) (mr : Nat) (kw sw : ℚ)
    (filt : Option String) (emb : List ℚ) (resp : SearchResponse)
    (hemb : env.embed q = some emb)
    (hs : env.search (build_search_params .semantic q mr sw filt emb) = some resp)
    (hdist : resp.hits.all (fun h => h.vector_distance.isSome) = true)
    (hsorted : resp.hits.Pairwise (fun a b =>
      a.vector_distance.getD 0 ≤ b.vector_distance.getD 0)) :
    hybrid_search env q .semantic mr kw sw filt =
      (resp.hits.map format_hit,
        [.embedCall q, .searchCall (build_search_params .semantic q mr sw filt emb)]) ∧
    (build_search_params .semantic q mr sw filt emb).q = "*" ∧
    (build_search_params .semantic q mr sw filt emb).vector_query = some ⟨emb, mr, none⟩ ∧
    (hybrid_search env q .semantic mr kw sw filt).1.map (fun r => r.relevance_score) =
      resp.hits.map (fun h => h.vector_distance.getD 0) ∧
    (hybrid_search env q .semantic mr kw sw filt).1.Pairwise
      (fun a b => a.relevance_score ≤ b.relevance_score) := by
  have hrun : hybrid_search env q .semantic mr kw sw filt =
      (resp.hits.map format_hit,
        [.embedCall q, .searchCall (build_search_params .semantic q mr sw filt emb)]) := by
    simp only [hybrid_search, hemb, hs]
  have hpt : ∀ h ∈ resp.hits, (format_hit h).relevance_score = h.vector_distance.getD 0 := by
    intro h hh
    have hsome := List.all_eq_true.mp hdist h hh
    obtain ⟨d, hd⟩ := Option.isSome_iff_exists.mp (by simpa using hsome)
    simp [format_hit, hd]
  refine ⟨hrun, rfl, rfl, ?_, ?_⟩
  · rw [hrun]
    simp only [List.map_map]
    exact List.map_congr_left hpt
  · rw [hrun]
    simp only []
    rw [List.pairwise_map]
    refine hsorted.imp_of_mem ?_
    intro a b ha hb hab
    rw [hpt a ha, hpt b hb]
    exact hab

/-- C3 (witness): the amended theorem at the two-hit nearest-first
environment. -/
theorem semantic_search_shape_inst :
    hybrid_search envSem "q" .semantic 10 (1/2) (1/2) none =
      ((SearchResponse.mk [⟨"c1", "d1", "n1", "t1", some 0, none, some 2, some 1⟩,
        ⟨"c2", "d1", "n1", "t2", some 1, none, some 2, some 9⟩]).hits.map format_hit,
        [.embedCall "q", .searchCall (build_search_params .semantic "q" 10 (1/2) none [2])]) ∧
    (build_search_params .semantic "q" 10 (1/2) none [2]).q = "*" ∧
    (build_search_params .semantic "q" 10 (1/2) none [2]).vector_query = some ⟨[2], 10, none⟩ ∧
    (hybrid_search envSem "q" .semantic 10 (1/2) (1/2) none).1.map
      (fun r => r.relevance_score) =
      (SearchResponse.mk [⟨"c1", "d1", "n1", "t1", some 0, none, some 2, some 1⟩,
        ⟨"c2", "d1", "n1", "t2", some 1, none, some 2, some 9⟩]).hits.map
        (fun h => h.vector_distance.getD 0) ∧
    (hybrid_search envSem "q" .semantic 10 (1/2) (1/2) none).1.Pairwise
      (fun a b => a.relevance_score ≤ b.relevance_score) :=
  semantic_search_shape envSem "q" 10 (1/2) (1/2) none [2] _ rfl rfl (by decide) (by decide)

/-- C7: whichever collaborator invoked by `hybrid_search` fails — the
embedding call, or the index query actually issued — the function returns
the empty result list.  It cannot raise: the embedded function is total,
mirroring the `try/except: return []` that wraps the whole body. -/
theorem hybrid_search_failure_empty (env : SearchEnv) (q : String) (strat : SearchStrategy)
    (mr : Nat) (kw sw : ℚ) (filt : Option String)
    (hfail : match env.embed q with
      | none => True
      | some emb => env.search (build_search_params strat q mr sw filt emb) = none) :
    (hybrid_search env q strat mr kw sw filt).1 = [] := by
  cases hemb : env.embed q with
  | none => simp [hybrid_search, hemb]
  | some emb =>
    have hfail2 : env.search (build_search_params strat q mr sw filt emb) = none := by
      rw [hemb] at hfail
      exact hfail
    simp [hybrid_search, hemb, hfail2]

def envFail : SearchEnv := ⟨fun _ => none, fun _ => some ⟨[]⟩⟩

/-- C7 (witness): a failing embedding collaborator yields the empty result
list on a HYBRID run. -/
theorem hybrid_search_failure_empty_inst :
    (hybrid_search envFail "q" .hybrid 10 (1/2) (1/2) none).1 = [] :=
  hybrid_search_failure_empty envFail "q" .hybrid 10 (1/2) (1/2) none trivial

end SmartDocSearch
